import Mathlib

/-!
Verification of `scripts/generate-og.py` (pointilism repository).

The embedding is a shallow one:

* Python's `random.Random(seed)` is the Mersenne Twister MT19937 as CPython
  seeds and steps it (`init_by_array` over the 32-bit little-endian chunks of
  `abs(seed)`, tempered 32-bit outputs, 53-bit `random()`), modelled exactly
  over `Nat`; the generator state is the 624 words packed into a single `Nat`
  plus the output index.
* Python floats are modelled as exact rationals (`ℚ`); decimal literals such
  as `1.4` denote the exact rational.  The spec itself states properties
  "modulo floating-point formatting", and every claim proved below is either
  independent of rounding or noted as proved in this exact-rational model.
* The f-string serialization is modelled structurally: the returned `Document`
  records the one background rectangle, the circle per accepted dot and the
  two text elements that the template emits, with the escaped text content.
-/

namespace Pointilism

/-! ## MT19937, exactly as CPython's `_randommodule.c` -/

def mask32 : Nat := 0xFFFFFFFF

/-- Strict sequencing, semantically just `k n`: the guard forces `n` to a
numeral during kernel reduction, keeping the reduction stack shallow when the
state-passing loops below are evaluated on concrete inputs. -/
def withNF {α : Sort u} (n : Nat) (k : Nat → α) : α :=
  if n % 2 = 0 then k n else k n

/-- Word `i` of the packed 624-word state. -/
def mtWord (s i : Nat) : Nat := (s >>> (32 * i)) &&& mask32

/-- Set word `i` of the packed state to `w` (mod 2^32). -/
def mtSet (s i w : Nat) : Nat :=
  s % 2 ^ (32 * i) + (w &&& mask32) * 2 ^ (32 * i) +
    (s >>> (32 * (i + 1))) * 2 ^ (32 * (i + 1))

/-- `init_genrand`'s fill loop: `mt[i] = (1812433253 * (mt[i-1] ^ (mt[i-1] >> 30)) + i)`,
32-bit wrapped. -/
def initGenrandAux : Nat → Nat → Nat → Nat
  | st, _, 0 => st
  | st, i, fuel + 1 =>
    let prev := mtWord st (i - 1)
    withNF (mtSet st i ((1812433253 * (prev ^^^ (prev >>> 30)) + i) &&& mask32)) fun st1 =>
      initGenrandAux st1 (i + 1) fuel

/-- `init_genrand(s)`: word 0 is `s`, words 1..623 from the fill loop. -/
def initGenrand (s : Nat) : Nat := initGenrandAux (s &&& mask32) 1 623

/-- First mixing loop of `init_by_array` (runs `max 624 key.length` times). -/
def mixLoop1 (key : List Nat) : Nat → Nat → Nat → Nat → Nat × Nat
  | 0, st, i, _ => (st, i)
  | k + 1, st, i, j =>
    let prev := mtWord st (i - 1)
    let v := ((mtWord st i ^^^ ((prev ^^^ (prev >>> 30)) * 1664525)) + key.getD j 0 + j)
      &&& mask32
    let st1 := mtSet st i v
    let st2 := if 624 ≤ i + 1 then mtSet st1 0 (mtWord st1 623) else st1
    let i2 := if 624 ≤ i + 1 then 1 else i + 1
    let j1 := if key.length ≤ j + 1 then 0 else j + 1
    withNF st2 fun st3 => mixLoop1 key k st3 i2 j1

/-- Second mixing loop of `init_by_array` (623 iterations); the `- i` is the
C `uint32_t` wraparound subtraction. -/
def mixLoop2 : Nat → Nat → Nat → Nat
  | 0, st, _ => st
  | k + 1, st, i =>
    let prev := mtWord st (i - 1)
    let v := (((mtWord st i ^^^ ((prev ^^^ (prev >>> 30)) * 1566083941)) &&& mask32)
      + 0x100000000 - i) &&& mask32
    let st1 := mtSet st i v
    let st2 := if 624 ≤ i + 1 then mtSet st1 0 (mtWord st1 623) else st1
    let i2 := if 624 ≤ i + 1 then 1 else i + 1
    withNF st2 fun st3 => mixLoop2 k st3 i2

/-- `init_by_array(key)`. -/
def initByArray (key : List Nat) : Nat :=
  let st0 := initGenrand 19650218
  let si := mixLoop1 key (max 624 key.length) st0 1 0
  let st1 := mixLoop2 623 si.1 si.2
  mtSet st1 0 0x80000000

/-- Little-endian 32-bit chunks of a natural number (`[0]` for zero); the
second argument is structural fuel, always sufficient at `fuel = n`. -/
def natChunksAux : Nat → Nat → List Nat
  | n, 0 => [n]
  | n, fuel + 1 =>
    if n < 0x100000000 then [n] else (n &&& mask32) :: natChunksAux (n >>> 32) fuel

/-- CPython `random_seed`: the key is the 32-bit little-endian chunking of
`abs(seed)`. -/
def seedKey (seed : ℤ) : List Nat := natChunksAux seed.natAbs seed.natAbs

/-- The generator state: packed word array plus output index `mti`. -/
structure MTState where
  s : Nat
  mti : Nat
deriving DecidableEq

/-- `random.Random(seed)`: seeded state with `mti = 624` (next output twists). -/
def mtInit (seed : ℤ) : MTState := ⟨initByArray (seedKey seed), 624⟩

/-- One step of the regeneration loop (in-place over the packed state). -/
def twistLoop : Nat → Nat → Nat → Nat
  | 0, st, _ => st
  | k + 1, st, kk =>
    let y := (mtWord st kk &&& 0x80000000) ||| (mtWord st ((kk + 1) % 624) &&& 0x7FFFFFFF)
    let v := mtWord st ((kk + 397) % 624) ^^^ (y >>> 1) ^^^
      (if y &&& 1 = 1 then 0x9908B0DF else 0)
    withNF (mtSet st kk v) fun st1 => twistLoop k st1 (kk + 1)

/-- Regenerate all 624 words. -/
def twistAll (s : Nat) : Nat := twistLoop 624 s 0

/-- MT19937 output tempering. -/
def temper (y : Nat) : Nat :=
  let y1 := y ^^^ (y >>> 11)
  let y2 := y1 ^^^ ((y1 <<< 7) &&& 0x9D2C5680)
  let y3 := y2 ^^^ ((y2 <<< 15) &&& 0xEFC60000)
  y3 ^^^ (y3 >>> 18)

/-- `genrand_uint32`: twist when the index is exhausted, then temper one word. -/
def genrand (st : MTState) : Nat × MTState :=
  let s := if 624 ≤ st.mti then twistAll st.s else st.s
  let i := if 624 ≤ st.mti then 0 else st.mti
  (temper (mtWord s i), ⟨s, i + 1⟩)

/-- `random_random` / `genrand_res53`: `(a*2^26 + b) / 2^53` with `a` the top
27 bits of one output and `b` the top 26 bits of the next.  The quotient is a
dyadic rational, which binary64 represents exactly, so this is exact. -/
def rand53 (st : MTState) : ℚ × MTState :=
  let g1 := genrand st
  let g2 := genrand g1.2
  ((((g1.1 >>> 5) * 67108864 + (g2.1 >>> 6) : ℕ) : ℚ) / 9007199254740992, g2.2)

/-- `random.uniform(a, b) = a + (b - a) * random()`. -/
def uniform (a b : ℚ) (st : MTState) : ℚ × MTState :=
  let rp := rand53 st
  (a + (b - a) * rp.1, rp.2)

/-! ## The generator's data -/

/-- The keyword parameters of `generate_svg`, with the source's defaults. -/
structure Params where
  width : ℤ := 1200
  height : ℤ := 630
  seed : ℤ := 20251214
  dot_count : ℤ := 850
  r_min : ℚ := 1.4
  r_max : ℚ := 5.2
  safe_w : ℤ := 980
  safe_h : ℤ := 250
  safe_pad : ℤ := 36

def defaultParams : Params := {}

/-- `safe_x0 = (width - safe_w) / 2 - safe_pad`. -/
def safeX0 (p : Params) : ℚ := ((p.width : ℚ) - (p.safe_w : ℚ)) / 2 - (p.safe_pad : ℚ)

/-- `safe_y0 = (height - safe_h) / 2 - safe_pad`. -/
def safeY0 (p : Params) : ℚ := ((p.height : ℚ) - (p.safe_h : ℚ)) / 2 - (p.safe_pad : ℚ)

/-- `safe_x1 = (width + safe_w) / 2 + safe_pad`. -/
def safeX1 (p : Params) : ℚ := ((p.width : ℚ) + (p.safe_w : ℚ)) / 2 + (p.safe_pad : ℚ)

/-- `safe_y1 = (height + safe_h) / 2 + safe_pad`. -/
def safeY1 (p : Params) : ℚ := ((p.height : ℚ) + (p.safe_h : ℚ)) / 2 + (p.safe_pad : ℚ)

/-- The rejection test `safe_x0 <= x <= safe_x1 and safe_y0 <= y <= safe_y1`. -/
def inSafeZone (p : Params) (x y : ℚ) : Prop :=
  safeX0 p ≤ x ∧ x ≤ safeX1 p ∧ safeY0 p ≤ y ∧ y ≤ safeY1 p

instance (p : Params) (x y : ℚ) : Decidable (inSafeZone p x y) :=
  inferInstanceAs (Decidable (safeX0 p ≤ x ∧ x ≤ safeX1 p ∧ safeY0 p ≤ y ∧ y ≤ safeY1 p))

/-- One accepted dot `(x, y, r, opacity)`. -/
structure Dot where
  x : ℚ
  y : ℚ
  r : ℚ
  opacity : ℚ
deriving DecidableEq

/-- `edge = min(x, y, width - x, height - y)`. -/
def edgeAt (p : Params) (x y : ℚ) : ℚ :=
  min (min x y) (min ((p.width : ℚ) - x) ((p.height : ℚ) - y))

/-- `fade = max(0.0, min(1.0, (edge - 6.0) / 64.0))`. -/
def fadeAt (p : Params) (x y : ℚ) : ℚ :=
  max 0 (min 1 ((edgeAt p x y - 6.0) / 64.0))

/-- The `while len(dots) < dot_count and attempts < max_attempts` loop.  The
`fuel` argument is the remaining attempt budget (`max_attempts - attempts`),
so the `attempts < max_attempts` conjunct is the fuel being positive;
`attempts` is incremented on every iteration, accepted or not.  `count`
tracks `len(dots)` (Python's constant-time `len`), and the accepted dots
accumulate in reverse and are reversed on exit, so the returned list is in
acceptance order exactly as the source's `dots.append`. -/
def sampleLoop (p : Params) (fuel : Nat) (st0 : MTState) (rev : List Dot)
    (count : Nat) (attempts : Nat) : List Dot × Nat :=
  match fuel with
  | 0 => (rev.reverse, attempts)
  | fuel + 1 =>
    if (count : ℤ) < p.dot_count then
      let xp := uniform 0 (p.width : ℚ) st0
      let yp := uniform 0 (p.height : ℚ) xp.2
      if inSafeZone p xp.1 yp.1 then
        sampleLoop p fuel yp.2 rev count (attempts + 1)
      else
        let up := rand53 yp.2
        sampleLoop p fuel up.2
          ({ x := xp.1, y := yp.1,
             r := p.r_min + (p.r_max - p.r_min) * up.1 ^ 2,
             opacity := 0.22 + 0.78 * fadeAt p xp.1 yp.1 } :: rev)
          (count + 1) (attempts + 1)
    else (rev.reverse, attempts)
  termination_by structural fuel

/-- The sampling phase of `generate_svg`: the accepted dots (in acceptance
order) and the final value of `attempts`. -/
def runSampling (p : Params) : List Dot × Nat :=
  sampleLoop p (p.dot_count * 40).toNat (mtInit p.seed) [] 0 0

/-! ### A flattened mirror of the sampling loop

Kernel reduction of long chains of tuple projections is slow, so for the
concrete default-parameter evaluation the generator is mirrored in
continuation style with the two state components passed as separate
arguments.  `sampleLoopFlat_eq` below proves the mirror pointwise equal to
`sampleLoop`; no claim is proved about the mirror directly. -/

/-- `genrand` with state components flat, in continuation style. -/
def genrandK {α : Sort u} (s mti : Nat) (k : Nat → Nat → Nat → α) : α :=
  if 624 ≤ mti then
    withNF (twistAll s) fun s1 => k (temper (mtWord s1 0)) s1 1
  else
    k (temper (mtWord s mti)) s (mti + 1)

/-- `rand53` with state components flat, in continuation style. -/
def rand53K {α : Sort u} (s mti : Nat) (k : ℚ → Nat → Nat → α) : α :=
  genrandK s mti fun a s1 m1 =>
    genrandK s1 m1 fun b s2 m2 =>
      k ((((a >>> 5) * 67108864 + (b >>> 6) : ℕ) : ℚ) / 9007199254740992) s2 m2

/-- `uniform` with state components flat, in continuation style. -/
def uniformK {α : Sort u} (lo hi : ℚ) (s mti : Nat) (k : ℚ → Nat → Nat → α) : α :=
  rand53K s mti fun u s1 m1 => k (lo + (hi - lo) * u) s1 m1

/-- `sampleLoop` over the flattened state. -/
def sampleLoopFlat (p : Params) (fuel : Nat) (s mti : Nat) (rev : List Dot)
    (count attempts : Nat) : List Dot × Nat :=
  match fuel with
  | 0 => (rev.reverse, attempts)
  | fuel + 1 =>
    if (count : ℤ) < p.dot_count then
      uniformK 0 (p.width : ℚ) s mti fun x s1 m1 =>
        uniformK 0 (p.height : ℚ) s1 m1 fun y s2 m2 =>
          if inSafeZone p x y then
            sampleLoopFlat p fuel s2 m2 rev count (attempts + 1)
          else
            rand53K s2 m2 fun u s3 m3 =>
              sampleLoopFlat p fuel s3 m3
                ({ x := x, y := y, r := p.r_min + (p.r_max - p.r_min) * u ^ 2,
                   opacity := 0.22 + 0.78 * fadeAt p x y } :: rev)
                (count + 1) (attempts + 1)
    else (rev.reverse, attempts)
  termination_by structural fuel

/-! ## XML escaping (`_escape_xml`) -/

/-- Python `str.replace(old, new)` for a one-character pattern: every
occurrence of `c`, scanned left to right, becomes `rep`. -/
def replaceChar (c : Char) (rep : List Char) : List Char → List Char
  | [] => []
  | a :: s => (if a = c then rep else [a]) ++ replaceChar c rep s

def quoteChar : Char := Char.ofNat 34

def aposChar : Char := Char.ofNat 39

def entAmp : List Char := ['&', 'a', 'm', 'p', ';']

def entLt : List Char := ['&', 'l', 't', ';']

def entGt : List Char := ['&', 'g', 't', ';']

def entQuot : List Char := ['&', 'q', 'u', 'o', 't', ';']

def entApos : List Char := ['&', 'a', 'p', 'o', 's', ';']

/-- `_escape_xml`: the source's five `str.replace` calls, `&` first. -/
def escape_xml (s : List Char) : List Char :=
  replaceChar aposChar entApos
    (replaceChar quoteChar entQuot
      (replaceChar '>' entGt
        (replaceChar '<' entLt
          (replaceChar '&' entAmp s))))

/-- The single-pass entity map the escaper should realize: each of the five
special characters to its named entity, every other character unchanged. -/
def entity (a : Char) : List Char :=
  if a = '&' then entAmp
  else if a = '<' then entLt
  else if a = '>' then entGt
  else if a = quoteChar then entQuot
  else if a = aposChar then entApos
  else [a]

/-! ## The output document, structurally -/

structure RectElem where
  w : ℚ
  h : ℚ
  fill : List Char
deriving DecidableEq

structure TextElem where
  x : ℚ
  y : ℚ
  fontSize : ℚ
  content : List Char
deriving DecidableEq

/-- The pieces the f-string template emits: one `<rect>`, one `<circle>` per
accepted dot, two `<text>` elements.  (The numeric attribute formatting of
the template is not modelled; fields hold the exact values.) -/
structure Document where
  width : ℚ
  height : ℚ
  rects : List RectElem
  circles : List Dot
  texts : List TextElem
deriving DecidableEq

def whiteChars : List Char := ['w', 'h', 'i', 't', 'e']

def titleChars : List Char := "POINTILISM".toList

def subtitleChars : List Char := "A calm, monochrome surface to explore.".toList

/-- `generate_svg`: seed the generator, sample the dots, emit the document. -/
def generate_svg (p : Params) : Document :=
  let dots := (runSampling p).1
  { width := (p.width : ℚ), height := (p.height : ℚ),
    rects := [{ w := (p.width : ℚ), h := (p.height : ℚ), fill := whiteChars }],
    circles := dots,
    texts := [
      { x := (p.width : ℚ) / 2, y := (p.height : ℚ) / 2 - 22, fontSize := 96,
        content := escape_xml titleChars },
      { x := (p.width : ℚ) / 2, y := (p.height : ℚ) / 2 + 62, fontSize := 34,
        content := escape_xml subtitleChars }] }

/-- The default-seed instance on a 1×1 canvas with an empty safe zone
(`safe_w = -5` makes `safe_x1 < safe_x0`): the first sample is accepted, so
the output has exactly one dot.  Used to instantiate the per-dot theorems. -/
def tinyParams : Params :=
  { defaultParams with
    width := 1
    height := 1
    seed := 1
    dot_count := 1
    safe_w := -5
    safe_pad := 0 }

/-- The one dot the `tinyParams` run accepts. -/
def tinyDot : Dot := ((generate_svg tinyParams).circles).getD 0 ⟨0, 0, 0, 0⟩

/-! ## The flattened mirror agrees with the generator -/

theorem withNF_eq {α : Sort u} (n : Nat) (k : Nat → α) : withNF n k = k n := by
  unfold withNF
  split <;> rfl

theorem mtStateEta (st : MTState) : (⟨st.s, st.mti⟩ : MTState) = st := rfl

theorem genrandK_eq {α : Sort u} (s mti : Nat) (k : Nat → Nat → Nat → α) :
    genrandK s mti k =
      k (genrand ⟨s, mti⟩).1 (genrand ⟨s, mti⟩).2.s (genrand ⟨s, mti⟩).2.mti := by
  by_cases h : 624 ≤ mti <;> simp [genrandK, genrand, withNF_eq, h]

theorem rand53K_eq {α : Sort u} (s mti : Nat) (k : ℚ → Nat → Nat → α) :
    rand53K s mti k =
      k (rand53 ⟨s, mti⟩).1 (rand53 ⟨s, mti⟩).2.s (rand53 ⟨s, mti⟩).2.mti := by
  simp [rand53K, genrandK_eq, rand53, mtStateEta]

theorem uniformK_eq {α : Sort u} (lo hi : ℚ) (s mti : Nat) (k : ℚ → Nat → Nat → α) :
    uniformK lo hi s mti k =
      k (uniform lo hi ⟨s, mti⟩).1 (uniform lo hi ⟨s, mti⟩).2.s
        (uniform lo hi ⟨s, mti⟩).2.mti := by
  simp [uniformK, rand53K_eq, uniform]

theorem sampleLoopFlat_eq (p : Params) (fuel : Nat) :
    ∀ s mti rev count att,
      sampleLoopFlat p fuel s mti rev count att =
        sampleLoop p fuel ⟨s, mti⟩ rev count att := by
  induction fuel with
  | zero =>
    intro s mti rev count att
    rfl
  | succ n ih =>
    intro s mti rev count att
    simp only [sampleLoopFlat, sampleLoop, uniformK_eq, rand53K_eq, mtStateEta]
    split
    · split
      · exact ih _ _ _ _ _
      · exact ih _ _ _ _ _
    · rfl

theorem runSampling_eq_flat (p : Params) :
    runSampling p =
      sampleLoopFlat p (p.dot_count * 40).toNat (initByArray (seedKey p.seed)) 624
        [] 0 0 :=
  (sampleLoopFlat_eq p (p.dot_count * 40).toNat (initByArray (seedKey p.seed)) 624
    [] 0 0).symm

theorem circles_eq_flat (p : Params) :
    (generate_svg p).circles =
      (sampleLoopFlat p (p.dot_count * 40).toNat (initByArray (seedKey p.seed)) 624
        [] 0 0).1 := by
  rw [← runSampling_eq_flat]
  rfl

/-! ## Bounds on the random source -/

theorem mtWord_lt (s i : Nat) : mtWord s i < 2 ^ 32 :=
  lt_of_le_of_lt Nat.and_le_right (by norm_num [mask32])

theorem shiftRight_le_self (x k : Nat) : x >>> k ≤ x := by
  rw [Nat.shiftRight_eq_div_pow]
  exact Nat.div_le_self _ _

theorem shiftRight_lt_pow {x k n : Nat} (h : x < 2 ^ (n + k)) : x >>> k < 2 ^ n := by
  rw [Nat.shiftRight_eq_div_pow]
  refine (Nat.div_lt_iff_lt_mul (Nat.two_pow_pos k)).2 ?_
  rw [← pow_add]
  exact h

theorem temper_lt {y : Nat} (h : y < 2 ^ 32) : temper y < 2 ^ 32 := by
  have h1 : y ^^^ (y >>> 11) < 2 ^ 32 :=
    Nat.xor_lt_two_pow h (lt_of_le_of_lt (shiftRight_le_self _ _) h)
  have h2 : (y ^^^ (y >>> 11)) ^^^ (((y ^^^ (y >>> 11)) <<< 7) &&& 0x9D2C5680) < 2 ^ 32 :=
    Nat.xor_lt_two_pow h1 (lt_of_le_of_lt Nat.and_le_right (by norm_num))
  have h3 : ((y ^^^ (y >>> 11)) ^^^ (((y ^^^ (y >>> 11)) <<< 7) &&& 0x9D2C5680)) ^^^
      ((((y ^^^ (y >>> 11)) ^^^ (((y ^^^ (y >>> 11)) <<< 7) &&& 0x9D2C5680)) <<< 15)
        &&& 0xEFC60000) < 2 ^ 32 :=
    Nat.xor_lt_two_pow h2 (lt_of_le_of_lt Nat.and_le_right (by norm_num))
  exact Nat.xor_lt_two_pow h3 (lt_of_le_of_lt (shiftRight_le_self _ _) h3)

theorem genrand_fst_lt (st : MTState) : (genrand st).1 < 2 ^ 32 :=
  temper_lt (mtWord_lt _ _)

theorem rand53_nonneg (st : MTState) : 0 ≤ (rand53 st).1 := by
  simp only [rand53]
  positivity

theorem rand53_lt_one (st : MTState) : (rand53 st).1 < 1 := by
  simp only [rand53]
  rw [div_lt_one (by norm_num)]
  have ha : (genrand st).1 >>> 5 < 2 ^ 27 := shiftRight_lt_pow (genrand_fst_lt st)
  have hb : (genrand (genrand st).2).1 >>> 6 < 2 ^ 26 :=
    shiftRight_lt_pow (genrand_fst_lt (genrand st).2)
  have hn : (genrand st).1 >>> 5 * 67108864 + (genrand (genrand st).2).1 >>> 6
      < 9007199254740992 := by
    have ha' : (genrand st).1 >>> 5 ≤ 134217727 := by omega
    have hb' : (genrand (genrand st).2).1 >>> 6 ≤ 67108863 := by omega
    nlinarith
  exact_mod_cast hn

theorem uniform_mem {b : ℚ} (hb : 0 < b) (st : MTState) :
    0 ≤ (uniform 0 b st).1 ∧ (uniform 0 b st).1 < b := by
  simp only [uniform]
  have h0 := rand53_nonneg st
  have h1 := rand53_lt_one st
  constructor
  · nlinarith
  · nlinarith

/-! ## The escaper realizes the single-pass entity map -/

theorem replaceChar_append (c : Char) (rep xs ys : List Char) :
    replaceChar c rep (xs ++ ys) = replaceChar c rep xs ++ replaceChar c rep ys := by
  induction xs with
  | nil => rfl
  | cons a s ih => simp [replaceChar, ih]

theorem escape_xml_append (xs ys : List Char) :
    escape_xml (xs ++ ys) = escape_xml xs ++ escape_xml ys := by
  simp [escape_xml, replaceChar_append]

theorem escape_xml_single (a : Char) : escape_xml [a] = entity a := by
  by_cases h1 : a = '&'
  · subst h1; rfl
  by_cases h2 : a = '<'
  · subst h2; rfl
  by_cases h3 : a = '>'
  · subst h3; rfl
  by_cases h4 : a = quoteChar
  · subst h4; rfl
  by_cases h5 : a = aposChar
  · subst h5; rfl
  simp [escape_xml, replaceChar, entity, h1, h2, h3, h4, h5]

/-! ## Invariants of the sampling loop -/

theorem fadeAt_nonneg (p : Params) (x y : ℚ) : 0 ≤ fadeAt p x y :=
  le_max_left _ _

theorem fadeAt_le_one (p : Params) (x y : ℚ) : fadeAt p x y ≤ 1 :=
  max_le zero_le_one (min_le_left _ _)

/-- Every dot the loop adds to its accumulator was accepted: its center failed
the safe-zone test, its radius came from the `r_min + (r_max - r_min) * u²`
formula for a 53-bit variate `u ∈ [0, 1)`, and its opacity is the clamped
edge fade. -/
theorem sampleLoop_mem (p : Params) (fuel : Nat) :
    ∀ (st0 : MTState) (rev : List Dot) (count att : Nat) (d : Dot),
      d ∈ (sampleLoop p fuel st0 rev count att).1 →
      d ∈ rev ∨
        (¬ inSafeZone p d.x d.y ∧
          (∃ u : ℚ, 0 ≤ u ∧ u < 1 ∧ d.r = p.r_min + (p.r_max - p.r_min) * u ^ 2) ∧
          d.opacity = 0.22 + 0.78 * fadeAt p d.x d.y) := by
  induction fuel with
  | zero =>
    intro st0 rev count att d hd
    exact Or.inl (by simpa [sampleLoop] using hd)
  | succ n ih =>
    intro st0 rev count att d hd
    simp only [sampleLoop] at hd
    split at hd
    · split at hd
      · exact ih _ _ _ _ _ hd
      · next hsafe =>
        rcases ih _ _ _ _ _ hd with h | h
        · rcases List.mem_cons.1 h with h | h
          · subst h
            exact Or.inr ⟨hsafe, ⟨_, rand53_nonneg _, rand53_lt_one _, rfl⟩, rfl⟩
          · exact Or.inl h
        · exact Or.inr h
    · exact Or.inl (by simpa using hd)

/-- The accumulator never grows beyond `dot_count` accepted dots. -/
theorem sampleLoop_length_le (p : Params) (fuel : Nat) :
    ∀ st0 rev count att, count = rev.length →
      (sampleLoop p fuel st0 rev count att).1.length ≤ max rev.length p.dot_count.toNat := by
  induction fuel with
  | zero =>
    intro st0 rev count att hc
    simp [sampleLoop]
  | succ n ih =>
    intro st0 rev count att hc
    simp only [sampleLoop]
    split
    · next hlt =>
      split
      · exact ih _ _ _ _ hc
      · refine le_trans (ih _ _ _ _ (by simp [hc])) ?_
        simp only [List.length_cons]
        omega
    · simp

/-- `attempts` grows by at most the remaining budget. -/
theorem sampleLoop_attempts_le (p : Params) (fuel : Nat) :
    ∀ st0 rev count att, (sampleLoop p fuel st0 rev count att).2 ≤ att + fuel := by
  induction fuel with
  | zero =>
    intro st0 rev count att
    simp [sampleLoop]
  | succ n ih =>
    intro st0 rev count att
    simp only [sampleLoop]
    split
    · split
      · exact le_trans (ih _ _ _ _) (by omega)
      · exact le_trans (ih _ _ _ _) (by omega)
    · simp

/-- The loop runs until the dot target is met or the budget is exhausted:
on return either `dot_count` dots have been accepted, or every unit of fuel
was consumed (one attempt per iteration). -/
theorem sampleLoop_stop (p : Params) (fuel : Nat) :
    ∀ st0 rev count att, count = rev.length →
      p.dot_count ≤ ((sampleLoop p fuel st0 rev count att).1.length : ℤ) ∨
        (sampleLoop p fuel st0 rev count att).2 = att + fuel := by
  induction fuel with
  | zero =>
    intro st0 rev count att hc
    right
    simp [sampleLoop]
  | succ n ih =>
    intro st0 rev count att hc
    simp only [sampleLoop]
    split
    · split
      · rcases ih (uniform 0 (p.height : ℚ) (uniform 0 (p.width : ℚ) st0).2).2 rev count
          (att + 1) hc with h | h
        · exact Or.inl h
        · exact Or.inr (by omega)
      · exact (ih _ _ _ _ (by simp [hc])).imp (fun h => h) (fun h => by omega)
    · next hge =>
      have h : p.dot_count ≤ ((rev.reverse).length : ℤ) := by
        simp only [List.length_reverse]
        omega
      exact Or.inl h

/-- Each accepted dot consumed at least one attempt. -/
theorem sampleLoop_length_le_attempts (p : Params) (fuel : Nat) :
    ∀ st0 rev count att,
      (sampleLoop p fuel st0 rev count att).1.length + att ≤
        (sampleLoop p fuel st0 rev count att).2 + rev.length := by
  induction fuel with
  | zero =>
    intro st0 rev count att
    simp [sampleLoop]
    omega
  | succ n ih =>
    intro st0 rev count att
    simp only [sampleLoop]
    split
    · split
      · have := ih (uniform 0 (p.height : ℚ) (uniform 0 (p.width : ℚ) st0).2).2 rev count
          (att + 1)
        omega
      · refine Nat.le_of_succ_le_succ ?_
        have key : ∀ (s : MTState) (d : Dot),
            (sampleLoop p n s (d :: rev) (count + 1) (att + 1)).1.length + att + 1 ≤
              (sampleLoop p n s (d :: rev) (count + 1) (att + 1)).2 + rev.length + 1 := by
          intro s d
          have := ih s (d :: rev) (count + 1) (att + 1)
          simp only [List.length_cons] at this
          omega
        exact key _ _
    · simp
      omega

/-- When the safe zone covers the whole canvas, every sample is rejected and
the accumulator stays empty. -/
theorem sampleLoop_all_rejected (p : Params)
    (hw : (0 : ℚ) < (p.width : ℚ)) (hh : (0 : ℚ) < (p.height : ℚ))
    (h1 : safeX0 p ≤ 0) (h2 : (p.width : ℚ) ≤ safeX1 p)
    (h3 : safeY0 p ≤ 0) (h4 : (p.height : ℚ) ≤ safeY1 p) (fuel : Nat) :
    ∀ st0 att, (sampleLoop p fuel st0 [] 0 att).1 = [] := by
  induction fuel with
  | zero =>
    intro st0 att
    simp [sampleLoop]
  | succ n ih =>
    intro st0 att
    simp only [sampleLoop]
    split
    · rw [if_pos]
      · exact ih _ _
      · obtain ⟨hx0, hx1⟩ := uniform_mem hw st0
        obtain ⟨hy0, hy1⟩ := uniform_mem hh (uniform 0 (p.width : ℚ) st0).2
        exact ⟨le_trans h1 hx0, le_trans hx1.le h2, le_trans h3 hy0, le_trans hy1.le h4⟩
    · rfl

/-- Every dot of the output document was accepted by the loop, so it failed
the safe-zone test and carries the computed radius and opacity. -/
theorem mem_circles_accepted (p : Params) (d : Dot) (hd : d ∈ (generate_svg p).circles) :
    ¬ inSafeZone p d.x d.y ∧
      (∃ u : ℚ, 0 ≤ u ∧ u < 1 ∧ d.r = p.r_min + (p.r_max - p.r_min) * u ^ 2) ∧
      d.opacity = 0.22 + 0.78 * fadeAt p d.x d.y := by
  have hd' : d ∈ (sampleLoop p (p.dot_count * 40).toNat (mtInit p.seed) [] 0 0).1 := by
    simpa [generate_svg, runSampling] using hd
  rcases sampleLoop_mem p _ _ _ _ _ _ hd' with h | h
  · simp at h
  · exact h

/-! ## The claims -/

/-- C1.  `generate_svg` is deterministic: the pseudo-random source is a pure
function of the seed (MT19937), so two calls with the same numeric
parameters (seed included) return the same document; in particular two
invocations at the defaults are identical (see the witness). -/
theorem generate_svg_deterministic (p q : Params) (h : p = q) :
    generate_svg p = generate_svg q := by
  rw [h]

theorem generate_svg_deterministic_witness :
    generate_svg defaultParams = generate_svg defaultParams :=
  generate_svg_deterministic defaultParams defaultParams rfl

/-- C2.  Every dot of the output has its center strictly outside the closed
safe-zone rectangle: a sample with `safe_x0 ≤ x ≤ safe_x1` and
`safe_y0 ≤ y ≤ safe_y1` (boundary included) is rejected and never becomes a
circle. -/
theorem circles_outside_safe_zone (p : Params) (d : Dot)
    (hd : d ∈ (generate_svg p).circles) :
    ¬ (safeX0 p ≤ d.x ∧ d.x ≤ safeX1 p ∧ safeY0 p ≤ d.y ∧ d.y ≤ safeY1 p) :=
  (mem_circles_accepted p d hd).1

theorem circles_outside_safe_zone_witness :
    tinyDot ∈ (generate_svg tinyParams).circles ∧
      ¬ (safeX0 tinyParams ≤ tinyDot.x ∧ tinyDot.x ≤ safeX1 tinyParams ∧
          safeY0 tinyParams ≤ tinyDot.y ∧ tinyDot.y ≤ safeY1 tinyParams) := by
  have h : tinyDot ∈ (generate_svg tinyParams).circles := by decide!
  exact ⟨h, circles_outside_safe_zone tinyParams tinyDot h⟩

/-- C3.  Assuming `r_min ≤ r_max`, every dot's radius lies in
`[r_min, r_max]` and every opacity in `[0.22, 1.0]`. -/
theorem circles_radius_opacity_in_range (p : Params) (d : Dot)
    (hmin : p.r_min ≤ p.r_max) (hd : d ∈ (generate_svg p).circles) :
    p.r_min ≤ d.r ∧ d.r ≤ p.r_max ∧ (0.22 : ℚ) ≤ d.opacity ∧ d.opacity ≤ 1 := by
  obtain ⟨-, ⟨u, hu0, hu1, hr⟩, hop⟩ := mem_circles_accepted p d hd
  have hu2 : u ^ 2 ≤ 1 := by nlinarith
  have hu2' : 0 ≤ u ^ 2 := sq_nonneg u
  have hf0 := fadeAt_nonneg p d.x d.y
  have hf1 := fadeAt_le_one p d.x d.y
  refine ⟨?_, ?_, ?_, ?_⟩
  · rw [hr]; nlinarith
  · rw [hr]; nlinarith
  · rw [hop]; nlinarith
  · rw [hop]; nlinarith

theorem circles_radius_opacity_in_range_witness :
    tinyParams.r_min ≤ tinyParams.r_max ∧
      tinyDot ∈ (generate_svg tinyParams).circles ∧
      (tinyParams.r_min ≤ tinyDot.r ∧ tinyDot.r ≤ tinyParams.r_max ∧
        (0.22 : ℚ) ≤ tinyDot.opacity ∧ tinyDot.opacity ≤ 1) := by
  have hmin : tinyParams.r_min ≤ tinyParams.r_max := by
    norm_num [tinyParams, defaultParams]
  have h : tinyDot ∈ (generate_svg tinyParams).circles := by decide!
  exact ⟨hmin, h, circles_radius_opacity_in_range tinyParams tinyDot hmin h⟩

/-- C4.  The loop stops once `dot_count` dots are accepted or `dot_count*40`
attempts are consumed, whichever is first: the dot count never exceeds
`dot_count`, the attempt count never exceeds the budget, each accepted dot
consumed an attempt, on return the target was met or the budget is fully
spent, and a document is returned either way (its circles are exactly the
loop's dots). -/
theorem sampling_budget (p : Params) :
    (runSampling p).1.length ≤ p.dot_count.toNat ∧
      (runSampling p).2 ≤ (p.dot_count * 40).toNat ∧
      (p.dot_count ≤ ((runSampling p).1.length : ℤ) ∨
        (runSampling p).2 = (p.dot_count * 40).toNat) ∧
      (runSampling p).1.length ≤ (runSampling p).2 ∧
      (generate_svg p).circles = (runSampling p).1 := by
  refine ⟨?_, ?_, ?_, ?_, rfl⟩
  · have h := sampleLoop_length_le p (p.dot_count * 40).toNat (mtInit p.seed) [] 0 0 rfl
    simp only [runSampling]
    simp only [List.length_nil] at h
    omega
  · have h := sampleLoop_attempts_le p (p.dot_count * 40).toNat (mtInit p.seed) [] 0 0
    simp only [runSampling]
    omega
  · have h := sampleLoop_stop p (p.dot_count * 40).toNat (mtInit p.seed) [] 0 0 rfl
    simp only [runSampling]
    omega
  · have h := sampleLoop_length_le_attempts p (p.dot_count * 40).toNat (mtInit p.seed) [] 0 0
    simp only [runSampling]
    simp only [List.length_nil] at h
    omega

/-- C5.  Each dot's radius is `r_min + (r_max - r_min)·u²` for the uniform
variate `u ∈ [0,1)` drawn for it, its opacity is
`0.22 + 0.78·clamp((edge-6)/64, 0, 1)` for `edge = min(x, y, width-x,
height-y)` (that clamp is `fadeAt`), and a dot at least 70 units from every
border has opacity exactly 1. -/
theorem circles_radius_opacity_formulas (p : Params) (d : Dot)
    (hd : d ∈ (generate_svg p).circles) :
    (∃ u : ℚ, 0 ≤ u ∧ u < 1 ∧ d.r = p.r_min + (p.r_max - p.r_min) * u ^ 2) ∧
      d.opacity = 0.22 + 0.78 * fadeAt p d.x d.y ∧
      (70 ≤ d.x → 70 ≤ d.y → d.x ≤ (p.width : ℚ) - 70 → d.y ≤ (p.height : ℚ) - 70 →
        d.opacity = 1) := by
  obtain ⟨-, hex, hop⟩ := mem_circles_accepted p d hd
  refine ⟨hex, hop, ?_⟩
  intro h1 h2 h3 h4
  have hedge : (70 : ℚ) ≤ edgeAt p d.x d.y :=
    le_min (le_min h1 h2) (le_min (by linarith) (by linarith))
  have hdiv : (1 : ℚ) ≤ (edgeAt p d.x d.y - 6.0) / 64.0 := by
    rw [le_div_iff₀ (by norm_num)]
    linarith
  have hfade : fadeAt p d.x d.y = 1 := by
    unfold fadeAt
    rw [min_eq_left hdiv, max_eq_right zero_le_one]
  rw [hop, hfade]
  norm_num

theorem circles_radius_opacity_formulas_witness :
    tinyDot ∈ (generate_svg tinyParams).circles ∧
      tinyDot.opacity = 0.22 + 0.78 * fadeAt tinyParams tinyDot.x tinyDot.y := by
  have h : tinyDot ∈ (generate_svg tinyParams).circles := by decide!
  exact ⟨h, (circles_radius_opacity_formulas tinyParams tinyDot h).2.1⟩

/-- C6.  `_escape_xml` replaces each of `<`, `>`, `&`, `"`, `'` with its
named entity and nothing else, in a single logical pass: it equals the
character-wise entity map, so the `&` introduced by an earlier replacement
is never re-escaped. -/
theorem escape_xml_is_entity_map (s : List Char) :
    escape_xml s = (s.map entity).flatten := by
  induction s with
  | nil => rfl
  | cons a t ih =>
    have h : a :: t = [a] ++ t := rfl
    rw [h, escape_xml_append, escape_xml_single, ih]
    simp

/-- C7.  The document always holds exactly one white canvas-filling
background rectangle, one circle per accepted dot, and exactly two text
elements; with `dot_count = 0` there are no circles but the rectangle and
both texts are still present. -/
theorem document_structure (p : Params) :
    (generate_svg p).rects =
        [{ w := (p.width : ℚ), h := (p.height : ℚ), fill := whiteChars }] ∧
      (generate_svg p).texts.length = 2 ∧
      (generate_svg p).circles = (runSampling p).1 ∧
      (p.dot_count = 0 → (generate_svg p).circles = []) := by
  refine ⟨rfl, rfl, rfl, ?_⟩
  intro h
  simp [generate_svg, runSampling, h, sampleLoop]

/-- C9.  No input validation: every parameter record, however degenerate,
yields a document with the background rectangle and both texts; a
non-positive `dot_count` gives an empty attempt budget and zero circles, and
a safe zone covering the whole (positive) canvas rejects every sample, again
giving zero circles. -/
theorem degenerate_inputs_no_error (p : Params) :
    (generate_svg p).rects.length = 1 ∧
      (generate_svg p).texts.length = 2 ∧
      (p.dot_count ≤ 0 → (generate_svg p).circles = []) ∧
      (0 < p.width → 0 < p.height → safeX0 p ≤ 0 → (p.width : ℚ) ≤ safeX1 p →
        safeY0 p ≤ 0 → (p.height : ℚ) ≤ safeY1 p → (generate_svg p).circles = []) := by
  refine ⟨rfl, rfl, ?_, ?_⟩
  · intro h
    have h0 : (p.dot_count * 40).toNat = 0 := by omega
    simp [generate_svg, runSampling, h0, sampleLoop]
  · intro hw hh h1 h2 h3 h4
    have hw' : (0 : ℚ) < (p.width : ℚ) := by exact_mod_cast hw
    have hh' : (0 : ℚ) < (p.height : ℚ) := by exact_mod_cast hh
    have h := sampleLoop_all_rejected p hw' hh' h1 h2 h3 h4
      (p.dot_count * 40).toNat (mtInit p.seed) 0
    simpa [generate_svg, runSampling] using h

/-- C10.  The sampling loop terminates on every input: the attempt counter
increases each iteration and the loop runs at most `max 0 (dot_count * 40)`
iterations, so `generate_svg` is total (its circles are the loop's dots even
when the budget is zero or the whole canvas is rejected). -/
theorem sampling_terminates (p : Params) :
    ((runSampling p).2 : ℤ) ≤ max (p.dot_count * 40) 0 ∧
      (generate_svg p).circles = (runSampling p).1 := by
  constructor
  · have h := sampleLoop_attempts_le p (p.dot_count * 40).toNat (mtInit p.seed) [] 0 0
    have h' : (runSampling p).2 ≤ (p.dot_count * 40).toNat := by
      simpa [runSampling] using h
    omega
  · rfl

set_option maxRecDepth 1000000

set_option maxHeartbeats 4000000

/-- C8.  The reference-default run (`width = 1200`, `height = 630`,
`seed = 20251214`, `dot_count = 850`, radius range `[1.4, 5.2]`, safe zone
`980×250` padded by 36): the attempt budget suffices, so the document holds
exactly 850 circles, and its two texts read `POINTILISM` and
`A calm, monochrome surface to explore.`  Computed by kernel evaluation of
the full MT19937 stream (1555 attempts are consumed). -/
theorem default_run_scenario :
    (generate_svg defaultParams).circles.length = 850 ∧
      (generate_svg defaultParams).texts.map TextElem.content =
        [titleChars, subtitleChars] := by
  constructor
  · rw [circles_eq_flat]
    decide!
  · decide!

end Pointilism
